import Mathlib

/-
  Verification development for the Cartago seismic viewer (app.js).

  The JavaScript source is shallowly embedded in Lean:
  * JS numbers are modelled as `Option ℚ`: `some q` is an ordinary finite
    number, `none` is NaN.  Every JS comparison on possibly-NaN values goes
    through `jsLt`, which is false whenever either side is NaN, exactly as
    in JavaScript.  Where a claim's scope guarantees a well-formed number,
    plain `ℚ` is used and wrapped with `some` at `getColorByDepth` call
    sites.
  * `Math.sin`, `Math.cos` and `Math.PI` are external library functions and
    are modelled by an abstract environment `TrigEnv`.
  * `parseFloat` is an external library function and is modelled by an
    abstract parameter `pf : String → Option ℚ` (returning `none` for
    strings it cannot parse, as parseFloat returns NaN).
  * timers (`setTimeout`, `setInterval`) and `requestAnimationFrame`
    callbacks are modelled as a pending-task list inside the application
    state; the single-threaded event loop fires them one at a time at
    scheduler-chosen times (`now` arguments).  `Math.random()` values
    consumed by a call are supplied by a stream `rnd : ℕ → ℚ`.
-/

namespace Cartago

/-- JSNum models a JavaScript number: `none` is NaN, `some q` a finite value. -/
abbrev JSNum := Option ℚ

/-- jsLt models the JavaScript `<` operator: any comparison with NaN is false. -/
def jsLt : JSNum → JSNum → Bool
  | some a, some b => decide (a < b)
  | _, _ => false

/-- getColorByDepth embeds `getColorByDepth(depth)` from app.js:
    `if (depth < 20) return 0xff4444; if (depth < 60) return 0xffaa00; return 0x4444ff;` -/
def getColorByDepth (depth : JSNum) : ℕ :=
  if jsLt depth (some 20) then 0xff4444
  else if jsLt depth (some 60) then 0xffaa00
  else 0x4444ff

/-- markerSize embeds the marker size computation of the flat-map variant:
    `const size = 0.3 + (quake.magnitud / 3.4) * 0.8;` -/
def markerSize (m : ℚ) : ℚ := 3/10 + (m / (17/5)) * (4/5)

/-- markerSizeSphere embeds the marker size computation of the spherical variant:
    `const size = 0.08 + (quake.magnitud / 3.4) * 0.25;` -/
def markerSizeSphere (m : ℚ) : ℚ := 2/25 + (m / (17/5)) * (1/4)

/-- RawQuake embeds the record object built by `loadEarthquakeData` from one
    CSV line.  String-typed fields are `Option String` because indexing a JS
    array out of range yields `undefined` (`none`); numeric fields are the
    result of `parseFloat`, hence possibly NaN (`none`). -/
structure RawQuake where
  id : Option String
  fecha : Option String
  hora : Option String
  latitud : JSNum
  longitud : JSNum
  profundidad : JSNum
  magnitud : JSNum
  departamento : Option String
  municipio : Option String
deriving DecidableEq, Repr

/-- parseLine embeds the per-line body of `loadEarthquakeData`:
    `const parts = line.split(';'); return { id: parts[0], ...,
     latitud: parseFloat(parts[3]), ... };`
    where `pf` models the external `parseFloat`. -/
def parseLine (pf : String → JSNum) (line : String) : RawQuake :=
  let parts := line.splitOn ";"
  { id := parts[0]?
    fecha := parts[1]?
    hora := parts[2]?
    latitud := (parts[3]?).bind pf
    longitud := (parts[4]?).bind pf
    profundidad := (parts[5]?).bind pf
    magnitud := (parts[6]?).bind pf
    departamento := parts[7]?
    municipio := parts[8]? }

/-- parseLines embeds the line pipeline of `loadEarthquakeData`:
    `text.split('\n').slice(1)` then `.filter(line => line.trim())`
    then `.map(line => ...)`, applied to the already-split line list. -/
def parseLines (pf : String → JSNum) (ls : List String) : List RawQuake :=
  ((ls.drop 1).filter (fun l => !l.trim.isEmpty)).map (parseLine pf)

/-- loadEarthquakeData embeds `loadEarthquakeData` from app.js.  The
    try/catch around the awaited fetch is modelled by an `Except` input:
    on `error` the catch block only logs and `this.earthquakes` keeps its
    initial value `[]`; on `ok text` the parsed list is produced. -/
def loadEarthquakeData (pf : String → JSNum) (fetched : Except String String) :
    List RawQuake :=
  match fetched with
  | .error _ => []
  | .ok text => parseLines pf (text.splitOn "\n")

/-- Vec3 models a THREE.Vector3 with rational components. -/
structure Vec3 where
  x : ℚ
  y : ℚ
  z : ℚ
deriving DecidableEq, Repr

/-- Quake is the machine-level event record.  The animation claims range over
    in-domain data, so its numeric fields are plain rationals; NaN propagation
    from parsing is handled at the loader level (`RawQuake`). -/
structure Quake where
  latitud : ℚ
  longitud : ℚ
  profundidad : ℚ
  magnitud : ℚ
deriving DecidableEq, Repr

/-- latLngToXZ embeds `latLngToXZ(lat, lng)` of the flat-map variant, with the
    geoBounds constants minLat 4.61, maxLat 4.82, minLng -76.01, maxLng -75.82
    and mapScale 100. -/
def latLngToXZ (lat lng : ℚ) : ℚ × ℚ :=
  let normLat := (lat - 461/100) / (241/50 - 461/100)
  let normLng := (lng - (-(7601/100))) / ((-(3791/50)) - (-(7601/100)))
  ((normLng - 1/2) * 100, -(normLat - 1/2) * 100)

/-- depthToY embeds `depthToY(depth)`: `-(depth / 150) * 50`. -/
def depthToY (depth : ℚ) : ℚ := -(depth / 150) * 50

/-- Marker models one earthquake marker mesh: its mutable transform fields
    (scale, position, material opacity, depth-line material opacity) and its
    immutable userData (color, base size, record, cached original position). -/
structure Marker where
  scale : Vec3
  pos : Vec3
  opacity : ℚ
  lineOpacity : ℚ
  color : ℕ
  baseSize : ℚ
  quake : Quake
  originalPosition : Vec3
deriving DecidableEq, Repr

/-- mkMarker embeds the marker construction in `createEarthquakeMarkers`
    (flat-map variant): position from the projection, color from depth band,
    size from magnitude, material opacity 0.9, depth line opacity 0.3,
    `originalPosition` cached as a clone of the initial position. -/
def mkMarker (q : Quake) : Marker :=
  let xz := latLngToXZ q.latitud q.longitud
  let p : Vec3 := ⟨xz.1, depthToY q.profundidad, xz.2⟩
  { scale := ⟨1, 1, 1⟩
    pos := p
    opacity := 9/10
    lineOpacity := 3/10
    color := getColorByDepth (some q.profundidad)
    baseSize := markerSize q.magnitud
    quake := q
    originalPosition := p }

/-- createEarthquakeMarkers embeds the loop of `createEarthquakeMarkers`:
    one marker is pushed per loaded record, in order. -/
def createEarthquakeMarkers (qs : List Quake) : List Marker := qs.map mkMarker

/-- TrigEnv models the external math library: `Math.sin`, `Math.cos`, `Math.PI`. -/
structure TrigEnv where
  sin : ℚ → ℚ
  cos : ℚ → ℚ
  pi : ℚ

/-- Particle models one particle of a burst: a position and a velocity. -/
structure Particle where
  pos : Vec3
  vel : Vec3
deriving DecidableEq, Repr

/-- Burst models one THREE.Points particle system created by
    `createParticleExplosion`: its particles, its (uniform) color, its
    `userData.life` and its material opacity. -/
structure Burst where
  particles : List Particle
  color : ℕ
  life : ℚ
  opacity : ℚ
deriving DecidableEq, Repr

/-- burstSpeed embeds `const speed = 0.15 + Math.random() * 0.4;`. -/
def burstSpeed (r : ℚ) : ℚ := 3/20 + r * (2/5)

/-- burstTheta embeds `const theta = Math.random() * Math.PI * 2;`. -/
def burstTheta (env : TrigEnv) (r : ℚ) : ℚ := r * env.pi * 2

/-- burstPhi embeds `const phi = Math.random() * Math.PI;`. -/
def burstPhi (env : TrigEnv) (r : ℚ) : ℚ := r * env.pi

/-- burstVel embeds the velocity pushed for one particle:
    `(sin(phi)cos(theta)s, sin(phi)sin(theta)s, cos(phi)s)`. -/
def burstVel (env : TrigEnv) (s θ φ : ℚ) : Vec3 :=
  ⟨env.sin φ * env.cos θ * s, env.sin φ * env.sin θ * s, env.cos φ * s⟩

/-- particleCount embeds `const particleCount = Math.floor(magnitude * 100);`
    together with the `for (let i = 0; i < particleCount; i++)` loop bound:
    a negative (or NaN) bound runs the loop zero times. -/
def particleCount (magnitude : ℚ) : ℕ := (⌊magnitude * 100⌋).toNat

/-- createParticleExplosion embeds `createParticleExplosion(position,
    magnitude, depth)` of the flat-map variant: `particleCount` particles all
    starting at `position`, each with a random velocity of magnitude
    `burstSpeed`, colored by depth band, life 1.0, material opacity 1.
    The i-th particle consumes the three random samples 3i, 3i+1, 3i+2. -/
def createParticleExplosion (env : TrigEnv) (position : Vec3) (magnitude : ℚ)
    (depth : ℚ) (rnd : ℕ → ℚ) : Burst :=
  { particles := (List.range (particleCount magnitude)).map (fun i =>
      { pos := position
        vel := burstVel env (burstSpeed (rnd (3 * i)))
          (burstTheta env (rnd (3 * i + 1))) (burstPhi env (rnd (3 * i + 2))) })
    color := getColorByDepth (some depth)
    life := 1
    opacity := 1 }

/-- updateBurst embeds one iteration of the outer loop of
    `updateParticles(deltaTime)` on a single system: every particle position
    advances by `velocity * deltaTime * 60`, `life -= deltaTime * 0.5`, and
    the material opacity is set to the new life. -/
def updateBurst (dt : ℚ) (b : Burst) : Burst :=
  { particles := b.particles.map (fun p =>
      { pos := ⟨p.pos.x + p.vel.x * dt * 60, p.pos.y + p.vel.y * dt * 60,
                p.pos.z + p.vel.z * dt * 60⟩
        vel := p.vel })
    color := b.color
    life := b.life - dt * (1/2)
    opacity := b.life - dt * (1/2) }

/-- updateParticles embeds `updateParticles(deltaTime)`: every active system
    is updated, and a system whose updated life is `<= 0` is removed from the
    active collection (and its geometry and material disposed). -/
def updateParticles (systems : List Burst) (dt : ℚ) : List Burst :=
  (systems.map (updateBurst dt)).filter (fun b => decide (0 < b.life))

/-- Mode is the four-state visualization mode enumeration. -/
inductive Mode
  | explorer
  | history
  | chaos
  | rain
deriving DecidableEq, Repr

/-- Task models one pending host callback: a chaos pulse rAF continuation, a
    chaos-scheduled delayed burst timeout, the rain fall start timeout, a rain
    fall rAF continuation, or the double-click delayed burst timeout. -/
inductive Task
  | chaosPulse (idx : ℕ) (startTime duration : ℚ)
  | chaosBurst (idx : ℕ)
  | rainFallStart (idx : ℕ) (startY duration : ℚ)
  | rainFall (idx : ℕ) (startTime startY duration : ℚ)
  | dblBurst
deriving DecidableEq, Repr

/-- AppState models the mutable fields of the application object that the
    claims are about, plus the host scheduler state (`tasks`: pending
    timeouts and animation-frame callbacks; `modeInterval`: whether the
    history interval is installed). -/
structure AppState where
  markers : List Marker
  currentMode : Mode
  historyIndex : ℕ
  modeInterval : Bool
  tasks : List Task
  particleSystems : List Burst
  hoveredMarker : Option ℕ
  clickCount : ℕ
deriving DecidableEq, Repr

/-- initialState models the application right after scene build: markers
    created from the loaded records, explorer mode, nothing scheduled. -/
def initialState (qs : List Quake) : AppState :=
  { markers := createEarthquakeMarkers qs
    currentMode := Mode.explorer
    historyIndex := 0
    modeInterval := false
    tasks := []
    particleSystems := []
    hoveredMarker := none
    clickCount := 0 }

/-- listModify applies `f` to the i-th element of a list, leaving the rest
    unchanged (models an in-place mutation of one marker). -/
def listModify : List α → ℕ → (α → α) → List α
  | [], _, _ => []
  | a :: t, 0, f => f a :: t
  | a :: t, n + 1, f => a :: listModify t n f

/-- mapIdx maps an index-aware function over a list, indices starting at `i`
    (models `forEach((x, index) => ...)`). -/
def mapIdx (f : ℕ → α → β) : ℕ → List α → List β
  | _, [] => []
  | i, a :: t => f i a :: mapIdx f (i + 1) t

/-- jsMod models the JavaScript `%` operator on the non-negative operands used
    by the pulse animation (`elapsed % duration`). -/
def jsMod (a b : ℚ) : ℚ := a - b * ⌊a / b⌋

/-- resetMarker embeds the per-marker reset in `setMode`:
    `marker.scale.set(1, 1, 1); marker.position.copy(originalPosition);
     marker.material.opacity = 0.9; depthLine.material.opacity = 0.3;`. -/
def resetMarker (m : Marker) : Marker :=
  { m with scale := ⟨1, 1, 1⟩, pos := m.originalPosition,
           opacity := 9/10, lineOpacity := 3/10 }

/-- resetPhase embeds the prefix of `setMode` that runs before any
    mode-specific behavior: clear the interval, store the new mode, and reset
    every marker. -/
def resetPhase (mode : Mode) (s : AppState) : AppState :=
  { s with modeInterval := false
           currentMode := mode
           markers := s.markers.map resetMarker }

/-- historyDim embeds the dimming applied by history mode:
    `m.material.opacity = 0.1; m.userData.depthLine.material.opacity = 0.05;`. -/
def historyDim (m : Marker) : Marker :=
  { m with opacity := 1/10, lineOpacity := 1/20 }

/-- startHistoryMode embeds `startHistoryMode()`: dim all markers, reset the
    history index, and install the interval (whose tick is `historyTick`). -/
def startHistoryMode (s : AppState) : AppState :=
  { s with markers := s.markers.map historyDim
           historyIndex := 0
           modeInterval := true }

/-- pulseScale embeds `const scale = 1 + Math.sin(progress * Math.PI) * 0.7;`. -/
def pulseScale (env : TrigEnv) (progress : ℚ) : ℚ :=
  1 + env.sin (progress * env.pi) * (7/10)

/-- pulseLineOpacity embeds
    `depthLine.material.opacity = 0.3 + Math.sin(progress * Math.PI) * 0.3;`. -/
def pulseLineOpacity (env : TrigEnv) (progress : ℚ) : ℚ :=
  3/10 + env.sin (progress * env.pi) * (3/10)

/-- applyPulse embeds the marker mutation of one `pulse()` body at a given
    progress value: uniform scale and depth-line opacity. -/
def applyPulse (env : TrigEnv) (idx : ℕ) (progress : ℚ) (s : AppState) : AppState :=
  { s with markers := listModify s.markers idx (fun m =>
      let sc := pulseScale env progress
      { m with scale := ⟨sc, sc, sc⟩, lineOpacity := pulseLineOpacity env progress }) }

/-- startChaosMode embeds `startChaosMode()`.  Per marker `i`, random sample
    `2i` provides the pulse duration and sample `2i+1` the burst roll.  The
    immediate `pulse()` call runs with elapsed 0 (hence progress 0) under its
    own mode guard and registers the rAF continuation; a roll above 0.95
    schedules the delayed burst timeout, which carries no mode guard. -/
def startChaosMode (env : TrigEnv) (now : ℚ) (rnd : ℕ → ℚ) (s : AppState) : AppState :=
  let s1 :=
    if s.currentMode = Mode.chaos then
      let pulsed := s.markers.map (fun m =>
        let sc := pulseScale env 0
        { m with scale := ⟨sc, sc, sc⟩, lineOpacity := pulseLineOpacity env 0 })
      let pulses := mapIdx
        (fun i _ => Task.chaosPulse i now (500 + rnd (2 * i) * 500)) 0 s.markers
      { s with markers := pulsed, tasks := s.tasks ++ pulses }
    else s
  let rolls := (mapIdx (fun i _ =>
      if (19/20 : ℚ) < rnd (2 * i + 1) then some (Task.chaosBurst i) else none)
      0 s.markers).filterMap id
  { s1 with tasks := s1.tasks ++ rolls }

/-- rainStartY embeds `const startY = 80 + index * 0.5;`. -/
def rainStartY (index : ℕ) : ℚ := 80 + (index : ℚ) * (1/2)

/-- fallDuration embeds
    `const fallDuration = 1500 + (quake.magnitud / 3.4) * 1500;`. -/
def fallDuration (magnitud : ℚ) : ℚ := 1500 + (magnitud / (17/5)) * 1500

/-- startRainMode embeds `startRainMode()`: every marker is lifted to its
    staggered start altitude and a fall-start timeout is scheduled for it. -/
def startRainMode (s : AppState) : AppState :=
  let lifted := mapIdx
    (fun i m => { m with pos := { m.pos with y := rainStartY i } }) 0 s.markers
  let falls := mapIdx
    (fun i m => Task.rainFallStart i (rainStartY i) (fallDuration m.quake.magnitud))
    0 s.markers
  { s with markers := lifted, tasks := s.tasks ++ falls }

/-- modeEntry embeds the dispatch at the end of `setMode`: the behavior of
    the newly entered mode (explorer entry does nothing). -/
def modeEntry (env : TrigEnv) (mode : Mode) (now : ℚ) (rnd : ℕ → ℚ)
    (s : AppState) : AppState :=
  match mode with
  | Mode.explorer => s
  | Mode.history => startHistoryMode s
  | Mode.chaos => startChaosMode env now rnd s
  | Mode.rain => startRainMode s

/-- setMode embeds `setMode(mode)`: clear the interval, store the mode, reset
    every marker, then dispatch to the entered mode's start routine.  Pending
    timeouts and animation-frame callbacks are untouched (JavaScript only
    calls `clearInterval(this.modeInterval)`). -/
def setMode (env : TrigEnv) (mode : Mode) (now : ℚ) (rnd : ℕ → ℚ)
    (s : AppState) : AppState :=
  modeEntry env mode now rnd (resetPhase mode s)

/-- historyTick embeds the `setInterval` body of `startHistoryMode`: while the
    index is in range, reveal the marker at the index, fire its burst and
    advance; past the end, reset the index to 0 and dim every marker. -/
def historyTick (env : TrigEnv) (rnd : ℕ → ℚ) (s : AppState) : AppState :=
  if h : s.historyIndex < s.markers.length then
    let m := s.markers.get ⟨s.historyIndex, h⟩
    let revealed := listModify s.markers s.historyIndex
      (fun mk => { mk with opacity := 9/10, lineOpacity := 1/2 })
    let burst := createParticleExplosion env m.originalPosition m.quake.magnitud
      m.quake.profundidad rnd
    { s with markers := revealed
             particleSystems := s.particleSystems ++ [burst]
             historyIndex := s.historyIndex + 1 }
  else
    { s with historyIndex := 0, markers := s.markers.map historyDim }

/-- fallY embeds the fall position formula of the rain animation:
    `progress = Math.min(elapsed / duration, 1); eased = progress * progress;
     position.y = startY + (targetY - startY) * eased;`. -/
def fallY (startY targetY duration elapsed : ℚ) : ℚ :=
  let progress := min (elapsed / duration) 1
  startY + (targetY - startY) * (progress * progress)

/-- runFallBody embeds one execution of the `fall()` closure (flat-map
    variant): if the mode is no longer rain, snap the marker to its resting
    position and stop; otherwise write the eased position, and at progress 1
    fire the impact burst, snap exactly to the resting position and stop;
    before progress 1 re-register the rAF continuation. -/
def runFallBody (env : TrigEnv) (idx : ℕ) (startTime startY duration now : ℚ)
    (rnd : ℕ → ℚ) (s : AppState) : AppState :=
  if s.currentMode ≠ Mode.rain then
    let snapped := listModify s.markers idx
      (fun m => { m with pos := m.originalPosition })
    { s with markers := snapped }
  else
    let elapsed := now - startTime
    let progress := min (elapsed / duration) 1
    let falling := listModify s.markers idx (fun m =>
      { m with pos := { m.pos with y := fallY startY m.originalPosition.y duration elapsed } })
    let s := { s with markers := falling }
    if 1 ≤ progress then
      match s.markers[idx]? with
      | some m =>
        let burst := createParticleExplosion env m.originalPosition
          m.quake.magnitud m.quake.profundidad rnd
        let snapped := listModify s.markers idx
          (fun mk => { mk with pos := mk.originalPosition })
        { s with particleSystems := s.particleSystems ++ [burst]
                 markers := snapped }
      | none => s
    else
      { s with tasks := s.tasks ++ [Task.rainFall idx startTime startY duration] }

/-- runTask embeds the firing of one pending host callback: the scheduler
    removes it from the pending set and runs its body. -/
def runTask (env : TrigEnv) (t : Task) (now : ℚ) (rnd : ℕ → ℚ)
    (s : AppState) : AppState :=
  let s := { s with tasks := s.tasks.erase t }
  match t with
  | Task.chaosPulse idx startTime duration =>
    if s.currentMode = Mode.chaos then
      let progress := jsMod (now - startTime) duration / duration
      let s := applyPulse env idx progress s
      { s with tasks := s.tasks ++ [Task.chaosPulse idx startTime duration] }
    else s
  | Task.chaosBurst idx =>
    match s.markers[idx]? with
    | some m =>
      { s with particleSystems := s.particleSystems ++
          [createParticleExplosion env m.originalPosition (m.quake.magnitud * (1/2))
            m.quake.profundidad rnd] }
    | none => s
  | Task.rainFallStart idx startY duration =>
    runFallBody env idx now startY duration now rnd s
  | Task.rainFall idx startTime startY duration =>
    runFallBody env idx startTime startY duration now rnd s
  | Task.dblBurst =>
    match s.hoveredMarker with
    | some i =>
      match s.markers[i]? with
      | some m =>
        { s with particleSystems := s.particleSystems ++
            [createParticleExplosion env m.originalPosition (m.quake.magnitud * 2)
              m.quake.profundidad rnd] }
      | none => s
    | none => s

/-- onMouseMove embeds `onMouseMove`: the previously hovered marker (if any)
    is unemphasized, and the nearest hit (if any) becomes hovered and is
    emphasized with scale (2,2,2) and depth-line opacity 0.8. -/
def unhoverApply (s : AppState) : AppState :=
  match s.hoveredMarker with
  | some i =>
    let unhovered := listModify s.markers i
      (fun m => { m with scale := ⟨1, 1, 1⟩, lineOpacity := 3/10 })
    { s with markers := unhovered, hoveredMarker := none }
  | none => s

def hoverApply (target : Option ℕ) (s : AppState) : AppState :=
  match target with
  | some i =>
    if i < s.markers.length then
      let hovered := listModify s.markers i
        (fun m => { m with scale := ⟨2, 2, 2⟩, lineOpacity := 4/5 })
      { s with hoveredMarker := some i, markers := hovered }
    else s
  | none => s

def onMouseMove (target : Option ℕ) (s : AppState) : AppState :=
  hoverApply target (unhoverApply s)

/-- onClick embeds `onClick`: with a hovered marker, increment the click
    counter and reset it at the achievement threshold 10. -/
def onClick (s : AppState) : AppState :=
  match s.hoveredMarker with
  | some _ =>
    if 10 ≤ s.clickCount + 1 then { s with clickCount := 0 }
    else { s with clickCount := s.clickCount + 1 }
  | none => s

/-- Step enumerates the externally triggered operations of the system: a mode
    switch, the firing of a pending callback, a history interval tick, a
    render-loop particle update, a pointer move, a click, and a double click
    (which only schedules its delayed burst; the camera is not modelled). -/
inductive Step
  | smode (mode : Mode) (now : ℚ) (rnd : ℕ → ℚ)
  | task (t : Task) (now : ℚ) (rnd : ℕ → ℚ)
  | tick (rnd : ℕ → ℚ)
  | frame (dt : ℚ)
  | mouse (target : Option ℕ)
  | click
  | dblclick

/-- stepRun executes one step.  A pending callback can only fire while it is
    pending, and the interval only ticks while installed. -/
def stepRun (env : TrigEnv) (s : AppState) : Step → AppState
  | Step.smode mode now rnd => setMode env mode now rnd s
  | Step.task t now rnd => if t ∈ s.tasks then runTask env t now rnd s else s
  | Step.tick rnd => if s.modeInterval then historyTick env rnd s else s
  | Step.frame dt => { s with particleSystems := updateParticles s.particleSystems dt }
  | Step.mouse target => onMouseMove target s
  | Step.click => onClick s
  | Step.dblclick =>
    match s.hoveredMarker with
    | some _ => { s with tasks := s.tasks ++ [Task.dblBurst] }
    | none => s

/-! Theorems -/

/-- Claim C5: `getColorByDepth` partitions non-negative depths strictly by
    the documented thresholds: depth < 20 gives the shallow band 0xff4444,
    20 ≤ depth < 60 the mid band 0xffaa00, depth ≥ 60 the deep band
    0x4444ff; in particular depth = 20 is mid and depth = 60 is deep. -/
theorem claim_c5 :
    (∀ d : ℚ, 0 ≤ d →
      (d < 20 → getColorByDepth (some d) = 0xff4444) ∧
      (20 ≤ d → d < 60 → getColorByDepth (some d) = 0xffaa00) ∧
      (60 ≤ d → getColorByDepth (some d) = 0x4444ff)) ∧
    getColorByDepth (some 20) = 0xffaa00 ∧
    getColorByDepth (some 60) = 0x4444ff := by
  refine ⟨fun d _ => ⟨fun h => ?_, fun h1 h2 => ?_, fun h => ?_⟩, by decide, by decide⟩
  · simp [getColorByDepth, jsLt, h]
  · have h1' : ¬d < 20 := not_lt.mpr h1
    simp [getColorByDepth, jsLt, h1', h2]
  · have h1' : ¬d < 20 := by linarith
    have h2' : ¬d < 60 := by linarith
    simp [getColorByDepth, jsLt, h1', h2']

/-- Witness for C5 at the concrete depths 5, 20 and 100. -/
theorem claim_c5_witness :
    getColorByDepth (some 5) = 0xff4444 ∧
    getColorByDepth (some 20) = 0xffaa00 ∧
    getColorByDepth (some 100) = 0x4444ff :=
  ⟨(claim_c5.1 5 (by norm_num)).1 (by norm_num),
   (claim_c5.1 20 (by norm_num)).2.1 (by norm_num) (by norm_num),
   (claim_c5.1 100 (by norm_num)).2.2 (by norm_num)⟩

/-- Claim C10: `getColorByDepth` is total over every JavaScript number
    including NaN: both guard comparisons are false on NaN, any input on
    which both are false falls through to the deep-band color 0x4444ff, and
    every input receives one of the three band colors. -/
theorem claim_c10 :
    getColorByDepth none = 0x4444ff ∧
    jsLt none (some 20) = false ∧
    jsLt none (some 60) = false ∧
    (∀ d : JSNum, jsLt d (some 20) = false → jsLt d (some 60) = false →
      getColorByDepth d = 0x4444ff) ∧
    (∀ d : JSNum, getColorByDepth d = 0xff4444 ∨ getColorByDepth d = 0xffaa00 ∨
      getColorByDepth d = 0x4444ff) := by
  refine ⟨rfl, rfl, rfl, fun d h1 h2 => ?_, fun d => ?_⟩
  · simp [getColorByDepth, h1, h2]
  · unfold getColorByDepth
    split_ifs <;> simp

/-- Witness for C10 at the NaN input. -/
theorem claim_c10_witness :
    getColorByDepth none = 0x4444ff ∧
    (getColorByDepth none = 0xff4444 ∨ getColorByDepth none = 0xffaa00 ∨
      getColorByDepth none = 0x4444ff) :=
  ⟨claim_c10.2.2.2.1 none rfl rfl, claim_c10.2.2.2.2 none⟩

/-- Claim C7: the magnitude-to-size mapping is monotonically non-decreasing
    in magnitude, in both rendering variants (0.3 + (m/3.4)·0.8 and
    0.08 + (m/3.4)·0.25). -/
theorem claim_c7 : ∀ m1 m2 : ℚ, m1 ≤ m2 →
    markerSize m1 ≤ markerSize m2 ∧ markerSizeSphere m1 ≤ markerSizeSphere m2 := by
  intro m1 m2 h
  have e1 : ∀ m : ℚ, markerSize m = 3/10 + m * (4 / 17) := by
    intro m; unfold markerSize; ring
  have e2 : ∀ m : ℚ, markerSizeSphere m = 2/25 + m * (5 / 68) := by
    intro m; unfold markerSizeSphere; ring
  have h1 : m1 * (4 / 17) ≤ m2 * (4 / 17) :=
    mul_le_mul_of_nonneg_right h (by norm_num)
  have h2 : m1 * (5 / 68) ≤ m2 * (5 / 68) :=
    mul_le_mul_of_nonneg_right h (by norm_num)
  rw [e1, e1, e2, e2]
  exact ⟨by linarith, by linarith⟩

/-- Witness for C7 at magnitudes 1 and 3.4. -/
theorem claim_c7_witness :
    markerSize 1 ≤ markerSize (17/5) ∧ markerSizeSphere 1 ≤ markerSizeSphere (17/5) :=
  claim_c7 1 (17/5) (by norm_num)

/-- Claim C8: the data loader never raises to its caller.  On a fetch or
    parse failure the result is the empty record list; on success the text is
    split into lines, the header line is dropped (its content is irrelevant),
    lines blank after trimming are ignored, and every remaining line is split
    on semicolons with the four numeric fields going through the
    (total, NaN-producing) float parser. -/
theorem claim_c8 : ∀ pf : String → JSNum,
    (∀ e, loadEarthquakeData pf (Except.error e) = []) ∧
    (∀ text, loadEarthquakeData pf (Except.ok text) =
      parseLines pf (text.splitOn "\n")) ∧
    (∀ h1 h2 ls, parseLines pf (h1 :: ls) = parseLines pf (h2 :: ls)) ∧
    (∀ l ls bls, (∀ b ∈ bls, b.trim.isEmpty = true) →
      parseLines pf ((l :: ls) ++ bls) = parseLines pf (l :: ls)) ∧
    (∀ line, parseLine pf line =
      { id := (line.splitOn ";")[0]?
        fecha := (line.splitOn ";")[1]?
        hora := (line.splitOn ";")[2]?
        latitud := ((line.splitOn ";")[3]?).bind pf
        longitud := ((line.splitOn ";")[4]?).bind pf
        profundidad := ((line.splitOn ";")[5]?).bind pf
        magnitud := ((line.splitOn ";")[6]?).bind pf
        departamento := (line.splitOn ";")[7]?
        municipio := (line.splitOn ";")[8]? }) := by
  intro pf
  refine ⟨fun e => rfl, fun text => rfl, fun h1 h2 ls => rfl,
    fun l ls bls hb => ?_, fun line => rfl⟩
  unfold parseLines
  have hnil : bls.filter (fun b => !b.trim.isEmpty) = [] := by
    apply List.filter_eq_nil_iff.mpr
    intro b hbm
    simp [hb b hbm]
  simp [List.filter_append, hnil]

/-- Witness for C8: a failed fetch yields no records, headers with different
    content parse alike, and an empty trailing-blank-line block is ignored. -/
theorem claim_c8_witness :
    loadEarthquakeData (fun s => if s = "3.4" then some (17/5) else none)
      (Except.error "network") = [] ∧
    parseLines (fun s => if s = "3.4" then some (17/5) else none)
      ("hdr1" :: ["a;f;h;1;2;3;3.4;d;m"]) =
    parseLines (fun s => if s = "3.4" then some (17/5) else none)
      ("hdr2" :: ["a;f;h;1;2;3;3.4;d;m"]) ∧
    parseLines (fun s => if s = "3.4" then some (17/5) else none)
      (("hdr" :: ["a;f;h;1;2;3;3.4;d;m"]) ++ []) =
    parseLines (fun s => if s = "3.4" then some (17/5) else none)
      ("hdr" :: ["a;f;h;1;2;3;3.4;d;m"]) :=
  ⟨(claim_c8 (fun s => if s = "3.4" then some (17/5) else none)).1 "network",
   (claim_c8 (fun s => if s = "3.4" then some (17/5) else none)).2.2.1
     "hdr1" "hdr2" ["a;f;h;1;2;3;3.4;d;m"],
   (claim_c8 (fun s => if s = "3.4" then some (17/5) else none)).2.2.2.1
     "hdr" ["a;f;h;1;2;3;3.4;d;m"] [] (by simp)⟩

/-! Helper lemmas about the list operations of the embedding. -/

theorem listModify_length (l : List α) (i : ℕ) (f : α → α) :
    (listModify l i f).length = l.length := by
  induction l generalizing i with
  | nil => rfl
  | cons a t ih =>
    cases i with
    | zero => rfl
    | succ n => simp [listModify, ih]

theorem listModify_getElem? (l : List α) (i : ℕ) (f : α → α) (j : ℕ) :
    (listModify l i f)[j]? = if i = j then (l[j]?).map f else l[j]? := by
  induction l generalizing i j with
  | nil => simp [listModify]
  | cons a t ih =>
    cases i with
    | zero =>
      cases j with
      | zero => simp [listModify]
      | succ m => simp [listModify]
    | succ n =>
      cases j with
      | zero => simp [listModify]
      | succ m => simpa [listModify, Nat.succ_inj] using ih n m

theorem mapIdx_length (f : ℕ → α → β) (i : ℕ) (l : List α) :
    (mapIdx f i l).length = l.length := by
  induction l generalizing i with
  | nil => rfl
  | cons a t ih => simp [mapIdx, ih]

theorem mapIdx_getElem? (f : ℕ → α → β) (i : ℕ) (l : List α) (j : ℕ) :
    (mapIdx f i l)[j]? = (l[j]?).map (f (i + j)) := by
  induction l generalizing i j with
  | nil => simp [mapIdx]
  | cons a t ih =>
    cases j with
    | zero => simp [mapIdx]
    | succ m =>
      have h := ih (i + 1) m
      have e : i + 1 + m = i + (m + 1) := by omega
      rw [e] at h
      simpa [mapIdx] using h

/-! Claim C6: particle bursts. -/

theorem foldl_updateParticles_nil (dts : List ℚ) :
    List.foldl updateParticles [] dts = [] := by
  induction dts with
  | nil => rfl
  | cons d t ih => simpa [updateParticles] using ih

/-- Claim C6: a burst spawned with magnitude m holds exactly ⌊m·100⌋
    particles, all starting at the origin position, with the depth-band
    color and a bounded random speed; each frame its life decreases by
    0.5·deltaTime and its opacity is set to the new life; a burst whose
    life reaches 0 is removed from the active collection, so every burst
    leaves the active set once the elapsed frame deltas sum to the
    decay-determined bound. -/
theorem claim_c6 (env : TrigEnv) :
    (∀ (position : Vec3) (m d : ℚ) (rnd : ℕ → ℚ), 0 ≤ m →
      ((createParticleExplosion env position m d rnd).particles.length : ℤ) =
        ⌊m * 100⌋) ∧
    (∀ (position : Vec3) (m d : ℚ) (rnd : ℕ → ℚ) (p : Particle),
      p ∈ (createParticleExplosion env position m d rnd).particles →
      p.pos = position) ∧
    (∀ (position : Vec3) (m d : ℚ) (rnd : ℕ → ℚ),
      (createParticleExplosion env position m d rnd).color =
        getColorByDepth (some d)) ∧
    (∀ (position : Vec3) (m d : ℚ) (rnd : ℕ → ℚ) (i : ℕ),
      i < particleCount m →
      (createParticleExplosion env position m d rnd).particles[i]? =
        some ⟨position, burstVel env (burstSpeed (rnd (3 * i)))
          (burstTheta env (rnd (3 * i + 1))) (burstPhi env (rnd (3 * i + 2)))⟩) ∧
    (∀ r : ℚ, 0 ≤ r → r < 1 →
      3/20 ≤ burstSpeed r ∧ burstSpeed r < 11/20) ∧
    (∀ (dt : ℚ) (b : Burst),
      (updateBurst dt b).life = b.life - dt * (1/2) ∧
      (updateBurst dt b).opacity = b.life - dt * (1/2)) ∧
    (∀ (l : List Burst) (dt : ℚ) (b : Burst),
      b ∈ updateParticles l dt → 0 < b.life) ∧
    (∀ (dts : List ℚ) (b : Burst), dts ≠ [] → (∀ x ∈ dts, 0 ≤ x) →
      b.life ≤ dts.sum * (1/2) →
      List.foldl updateParticles [b] dts = []) := by
  refine ⟨?_, ?_, fun position m d rnd => rfl, ?_, ?_, fun dt b => ⟨rfl, rfl⟩, ?_, ?_⟩
  · intro position m d rnd hm
    have h0 : (0 : ℤ) ≤ ⌊m * 100⌋ := by
      apply Int.floor_nonneg.mpr
      positivity
    simp [createParticleExplosion, particleCount, Int.toNat_of_nonneg h0]
  · intro position m d rnd p hp
    unfold createParticleExplosion at hp
    simp at hp
    obtain ⟨i, _, hi⟩ := hp
    rw [← hi]
  · intro position m d rnd i hi
    unfold createParticleExplosion
    simp [List.getElem?_map, List.getElem?_range, hi]
  · intro r h0 h1
    unfold burstSpeed
    constructor <;> nlinarith
  · intro l dt b hb
    unfold updateParticles at hb
    have := List.of_mem_filter hb
    simpa using this
  · intro dts
    induction dts with
    | nil => intro b hne _ _; exact absurd rfl hne
    | cons d rest ih =>
      intro b _ hpos hsum
      have hupd : List.foldl updateParticles [b] (d :: rest) =
          List.foldl updateParticles (updateParticles [b] d) rest := rfl
      rw [hupd]
      by_cases hlife : 0 < (updateBurst d b).life
      · have hne : rest ≠ [] := by
          intro h
          rw [h] at hsum
          simp [List.sum_cons] at hsum
          have : (updateBurst d b).life = b.life - d * (1/2) := rfl
          rw [this] at hlife
          linarith
        have hone : updateParticles [b] d = [updateBurst d b] := by
          simp [updateParticles, hlife]
        rw [hone]
        apply ih (updateBurst d b) hne
        · intro x hx; exact hpos x (List.mem_cons_of_mem d hx)
        · have hl : (updateBurst d b).life = b.life - d * (1/2) := rfl
          rw [hl]
          have : (d :: rest).sum = d + rest.sum := List.sum_cons
          rw [this] at hsum
          linarith
      · have hzero : updateParticles [b] d = [] := by
          simp [updateParticles, hlife]
        rw [hzero]
        exact foldl_updateParticles_nil rest

/-- Witness for C6: a burst of magnitude 1.5 spawns 150 particles and is
    removed after frame deltas summing past the decay bound. -/
theorem claim_c6_witness :
    ((createParticleExplosion ⟨fun _ => 0, fun _ => 0, 0⟩ ⟨0, 0, 0⟩ 1.5 10
        (fun _ => 0)).particles.length : ℤ) = ⌊(1.5 : ℚ) * 100⌋ ∧
    (3/20 ≤ burstSpeed (1/2) ∧ burstSpeed (1/2) < 11/20) ∧
    List.foldl updateParticles
      [createParticleExplosion ⟨fun _ => 0, fun _ => 0, 0⟩ ⟨0, 0, 0⟩ 0 10
        (fun _ => 0)] [1, 1] = [] :=
  ⟨(claim_c6 ⟨fun _ => 0, fun _ => 0, 0⟩).1 ⟨0, 0, 0⟩ 1.5 10 (fun _ => 0)
      (by norm_num),
   (claim_c6 ⟨fun _ => 0, fun _ => 0, 0⟩).2.2.2.2.1 (1/2) (by norm_num)
      (by norm_num),
   (claim_c6 ⟨fun _ => 0, fun _ => 0, 0⟩).2.2.2.2.2.2.2
      [1, 1] _ (by simp) (by norm_num) (by norm_num [createParticleExplosion])⟩

/-! Claim C2: the marker reset at mode entry. -/

/-- userData collects the immutable per-marker fields that survive every
    animation: the record, the cached resting position, the color and the
    base size. -/
def userData (m : Marker) : Quake × Vec3 × ℕ × ℚ :=
  (m.quake, m.originalPosition, m.color, m.baseSize)

theorem resetMarker_congr {a b : Marker} (h : userData a = userData b) :
    resetMarker a = resetMarker b := by
  cases a
  cases b
  simp [userData] at h
  obtain ⟨h1, h2, h3, h4⟩ := h
  simp [resetMarker, h1, h2, h3, h4]

theorem map_reset_of_userData_eq {l1 l2 : List Marker}
    (h : l1.map userData = l2.map userData) :
    l1.map resetMarker = l2.map resetMarker := by
  induction l1 generalizing l2 with
  | nil =>
    cases l2 with
    | nil => rfl
    | cons b t2 => simp at h
  | cons a t1 ih =>
    cases l2 with
    | nil => simp at h
    | cons b t2 =>
      simp only [List.map_cons, List.cons.injEq] at h
      obtain ⟨hab, ht⟩ := h
      simp only [List.map_cons, List.cons.injEq]
      exact ⟨resetMarker_congr hab, ih ht⟩

theorem startChaosMode_markers (env : TrigEnv) (now : ℚ) (rnd : ℕ → ℚ)
    (s : AppState) :
    (startChaosMode env now rnd s).markers =
    if s.currentMode = Mode.chaos then
      s.markers.map (fun m =>
        let sc := pulseScale env 0
        { m with scale := ⟨sc, sc, sc⟩, lineOpacity := pulseLineOpacity env 0 })
    else s.markers := by
  unfold startChaosMode
  by_cases h : s.currentMode = Mode.chaos <;> simp [h]

/-- Claim C2: `setMode` first resets every marker (scale (1,1,1), position
    copied from the cached originalPosition, opacity back to 0.9) and only
    then runs the entered mode's behavior; consequently the marker list
    produced by a mode switch depends only on the markers' immutable
    userData, not on their current animated configuration. -/
theorem claim_c2 (env : TrigEnv) :
    (∀ m : Marker, resetMarker m =
      { m with scale := ⟨1, 1, 1⟩, pos := m.originalPosition,
               opacity := 9/10, lineOpacity := 3/10 }) ∧
    (∀ mode now rnd s, setMode env mode now rnd s =
      modeEntry env mode now rnd (resetPhase mode s)) ∧
    (∀ mode s, (resetPhase mode s).markers = s.markers.map resetMarker) ∧
    (∀ mode now rnd s1 s2,
      s1.markers.map userData = s2.markers.map userData →
      (setMode env mode now rnd s1).markers =
        (setMode env mode now rnd s2).markers) := by
  refine ⟨fun m => rfl, fun mode now rnd s => rfl, fun mode s => rfl, ?_⟩
  intro mode now rnd s1 s2 h
  have hR : (resetPhase mode s1).markers = (resetPhase mode s2).markers := by
    simpa [resetPhase] using map_reset_of_userData_eq h
  cases mode with
  | explorer => simpa [setMode, modeEntry, resetPhase] using hR
  | history => simp [setMode, modeEntry, startHistoryMode, hR]
  | chaos =>
    show (startChaosMode env now rnd (resetPhase Mode.chaos s1)).markers =
      (startChaosMode env now rnd (resetPhase Mode.chaos s2)).markers
    rw [startChaosMode_markers, startChaosMode_markers, hR]
    rfl
  | rain => simp [setMode, modeEntry, startRainMode, hR]

/-- Shared concrete trigonometry environment for witnesses. -/
def env0 : TrigEnv := ⟨fun _ => 0, fun _ => 0, 0⟩

/-- Shared concrete randomness stream for witnesses. -/
def rnd1 : ℕ → ℚ := fun _ => 1

/-- Shared concrete record for witnesses. -/
def quakeA : Quake := ⟨47/10, -(759/10), 10, 0⟩

/-- Witness for C2: entering history mode from the freshly built state and
    from a perturbed state (scale 9, opacity 0) yields identical markers. -/
theorem claim_c2_witness :
    (setMode env0 Mode.history 0 rnd1 (initialState [quakeA])).markers =
    (setMode env0 Mode.history 0 rnd1
      { initialState [quakeA] with
        markers := (initialState [quakeA]).markers.map
          (fun m => { m with scale := ⟨9, 9, 9⟩, opacity := 0 }) }).markers :=
  (claim_c2 env0).2.2.2 Mode.history 0 rnd1 _ _ (by with_unfolding_all rfl)

/-! Claim C1: cancellation across mode switches. -/

/-- Concrete scene with one marker, used to exhibit an orphaned task. -/
def stateA : AppState := initialState [quakeA]

/-- stateChaos is stateA after `setMode('chaos')` with a randomness stream
    that rolls above 0.95, so a delayed burst timeout gets scheduled. -/
def stateChaos : AppState := setMode env0 Mode.chaos 0 rnd1 stateA

/-- stateSwitched is stateChaos after switching to explorer mode: the switch
    has completed its reset, yet the chaos-scheduled burst timeout is still
    pending. -/
def stateSwitched : AppState := setMode env0 Mode.explorer 1 rnd1 stateChaos

/-- stateFired is stateSwitched after the pending chaos burst timeout fires. -/
def stateFired : AppState := runTask env0 (Task.chaosBurst 0) 2 rnd1 stateSwitched

/-- Counterexample to claim C1 as stated: after the chaos → explorer switch
    completes its reset (no bursts active, mode is explorer), the burst
    timeout scheduled by the prior chaos mode is still pending — `setMode`
    only clears the interval — and firing it spawns a particle burst, so a
    task belonging to the prior mode mutates the scene after the switch. -/
theorem claim_c1_counterexample :
    stateSwitched.currentMode = Mode.explorer ∧
    stateSwitched.particleSystems = [] ∧
    stateSwitched.tasks = [Task.chaosPulse 0 0 1000, Task.chaosBurst 0] ∧
    stateFired.particleSystems.length = 1 := by
  refine ⟨?_, ?_, ?_, ?_⟩ <;> with_unfolding_all rfl

/-- Claim C1 amended: after `setMode`, the history interval is cancelled (a
    tick with no interval installed is a no-op); a chaos pulse callback
    resuming when the mode is no longer chaos terminates without touching any
    state; a rain fall callback resuming when the mode is no longer rain
    terminates without rescheduling but first writes the resting position to
    its marker; a chaos-scheduled delayed burst timeout, however, is neither
    cancelled nor mode-guarded and spawns a particle burst whenever it
    fires. -/
theorem claim_c1_amended (env : TrigEnv) :
    (∀ mode now rnd s, mode ≠ Mode.history →
      (setMode env mode now rnd s).modeInterval = false) ∧
    (∀ s rnd, s.modeInterval = false → stepRun env s (Step.tick rnd) = s) ∧
    (∀ idx st dur now rnd s, s.currentMode ≠ Mode.chaos →
      runTask env (Task.chaosPulse idx st dur) now rnd s =
        { s with tasks := s.tasks.erase (Task.chaosPulse idx st dur) }) ∧
    (∀ idx st sy dur now rnd s, s.currentMode ≠ Mode.rain →
      runTask env (Task.rainFall idx st sy dur) now rnd s =
        { s with tasks := s.tasks.erase (Task.rainFall idx st sy dur)
                 markers := listModify s.markers idx
                   (fun m => { m with pos := m.originalPosition }) }) ∧
    (∀ idx now rnd s m, s.markers[idx]? = some m →
      (runTask env (Task.chaosBurst idx) now rnd s).particleSystems =
        s.particleSystems ++ [createParticleExplosion env m.originalPosition
          (m.quake.magnitud * (1/2)) m.quake.profundidad rnd]) := by
  refine ⟨?_, ?_, ?_, ?_, ?_⟩
  · intro mode now rnd s h
    cases mode with
    | explorer => rfl
    | history => exact absurd rfl h
    | chaos =>
      show (startChaosMode env now rnd (resetPhase Mode.chaos s)).modeInterval = false
      unfold startChaosMode
      split_ifs <;> rfl
    | rain => rfl
  · intro s rnd h
    simp [stepRun, h]
  · intro idx st dur now rnd s h
    simp [runTask, h]
  · intro idx st sy dur now rnd s h
    simp [runTask, runFallBody, h]
  · intro idx now rnd s m hm
    simp [runTask, hm]

/-- Witness for the amended C1 at concrete states: the empty-scene state for
    the cancellation conjuncts and the one-marker state for the unguarded
    burst timeout. -/
theorem claim_c1_amended_witness :
    (setMode env0 Mode.explorer 0 rnd1 (initialState [])).modeInterval = false ∧
    stepRun env0 (initialState []) (Step.tick rnd1) = initialState [] ∧
    runTask env0 (Task.chaosPulse 0 0 1000) 5 rnd1 (initialState []) =
      { initialState [] with
        tasks := (initialState []).tasks.erase (Task.chaosPulse 0 0 1000) } ∧
    runTask env0 (Task.rainFall 0 0 80 1500) 5 rnd1 (initialState []) =
      { initialState [] with
        tasks := (initialState []).tasks.erase (Task.rainFall 0 0 80 1500)
        markers := listModify (initialState []).markers 0
          (fun m => { m with pos := m.originalPosition }) } ∧
    (runTask env0 (Task.chaosBurst 0) 2 rnd1 (initialState [quakeA])).particleSystems =
      (initialState [quakeA]).particleSystems ++
        [createParticleExplosion env0 (mkMarker quakeA).originalPosition
          ((mkMarker quakeA).quake.magnitud * (1/2))
          (mkMarker quakeA).quake.profundidad rnd1] :=
  ⟨(claim_c1_amended env0).1 Mode.explorer 0 rnd1 (initialState []) (by decide),
   (claim_c1_amended env0).2.1 (initialState []) rnd1 rfl,
   (claim_c1_amended env0).2.2.1 0 0 1000 5 rnd1 (initialState []) (by decide),
   (claim_c1_amended env0).2.2.2.1 0 0 80 1500 5 rnd1 (initialState []) (by decide),
   (claim_c1_amended env0).2.2.2.2 0 2 rnd1 (initialState [quakeA]) (mkMarker quakeA)
     (by with_unfolding_all rfl)⟩

/-! Claim C4: the rain fall animation. -/

theorem listModify_getElem?_self (l : List α) (i : ℕ) (f : α → α) :
    (listModify l i f)[i]? = (l[i]?).map f := by
  simp [listModify_getElem?]

/-- Claim C4: the fall position is monotonically non-increasing in elapsed
    time (quadratic ease-in toward a resting altitude below the start), it
    equals the target exactly from the moment the duration elapses; a fall
    callback running to completion in rain mode snaps the marker exactly to
    its cached resting position, fires the impact burst and does not
    reschedule; a fall callback resuming after a mode change immediately
    snaps the marker to its resting position. -/
theorem claim_c4 (env : TrigEnv) :
    (∀ sy ty d e1 e2 : ℚ, ty ≤ sy → 0 < d → 0 ≤ e1 → e1 ≤ e2 →
      fallY sy ty d e2 ≤ fallY sy ty d e1) ∧
    (∀ sy ty d e : ℚ, 0 < d → d ≤ e → fallY sy ty d e = ty) ∧
    (∀ idx st sy dur now rnd s m, s.currentMode = Mode.rain →
      s.markers[idx]? = some m → 0 < dur → dur ≤ now - st →
      ((runTask env (Task.rainFall idx st sy dur) now rnd s).markers[idx]?).map
          Marker.pos = some m.originalPosition ∧
      (runTask env (Task.rainFall idx st sy dur) now rnd s).particleSystems =
        s.particleSystems ++ [createParticleExplosion env m.originalPosition
          m.quake.magnitud m.quake.profundidad rnd] ∧
      (runTask env (Task.rainFall idx st sy dur) now rnd s).tasks =
        s.tasks.erase (Task.rainFall idx st sy dur)) ∧
    (∀ idx st sy dur now rnd s, s.currentMode ≠ Mode.rain →
      ((runTask env (Task.rainFall idx st sy dur) now rnd s).markers[idx]?).map
          Marker.pos = (s.markers[idx]?).map (fun m => m.originalPosition)) := by
  refine ⟨?_, ?_, ?_, ?_⟩
  · intro sy ty d e1 e2 hty hd he1 he12
    unfold fallY
    have hdiv : e1 / d ≤ e2 / d := by gcongr
    have hp1 : (0 : ℚ) ≤ min (e1 / d) 1 := le_min (div_nonneg he1 hd.le) zero_le_one
    have hpm : min (e1 / d) 1 ≤ min (e2 / d) 1 := min_le_min hdiv le_rfl
    have hsq : min (e1 / d) 1 * min (e1 / d) 1 ≤ min (e2 / d) 1 * min (e2 / d) 1 :=
      mul_le_mul hpm hpm hp1 (le_trans hp1 hpm)
    have hmul := mul_le_mul_of_nonpos_left hsq (by linarith : ty - sy ≤ 0)
    linarith
  · intro sy ty d e hd hde
    unfold fallY
    have h1 : (1 : ℚ) ≤ e / d := (one_le_div hd).mpr hde
    rw [min_eq_right h1]
    ring
  · intro idx st sy dur now rnd s m hmode hm hd hde
    have hprog : (1 : ℚ) ≤ min ((now - st) / dur) 1 :=
      le_min ((one_le_div hd).mpr hde) le_rfl
    refine ⟨?_, ?_, ?_⟩ <;>
      simp [runTask, runFallBody, hmode, hprog, listModify_getElem?_self, hm]
  · intro idx st sy dur now rnd s h
    simp only [runTask, runFallBody, h]
    simp [listModify_getElem?_self, h]
    cases s.markers[idx]? <;> simp

/-- Witness for C4 at concrete values: start altitude 80, resting altitude
    -10, duration 1000, and a one-marker state completing its fall. -/
theorem claim_c4_witness :
    fallY 80 (-10) 1000 900 ≤ fallY 80 (-10) 1000 300 ∧
    fallY 80 (-10) 1000 1000 = -10 ∧
    ((runTask env0 (Task.rainFall 0 0 80 1000) 1000 rnd1
        { initialState [quakeA] with currentMode := Mode.rain }).markers[0]?).map
      Marker.pos = some (mkMarker quakeA).originalPosition ∧
    ((runTask env0 (Task.rainFall 0 0 80 1000) 5 rnd1
        (initialState [quakeA])).markers[0]?).map Marker.pos =
      ((initialState [quakeA]).markers[0]?).map (fun m => m.originalPosition) :=
  ⟨(claim_c4 env0).1 80 (-10) 1000 300 900 (by norm_num) (by norm_num)
      (by norm_num) (by norm_num),
   (claim_c4 env0).2.1 80 (-10) 1000 1000 (by norm_num) (by norm_num),
   ((claim_c4 env0).2.2.1 0 0 80 1000 1000 rnd1
      { initialState [quakeA] with currentMode := Mode.rain } (mkMarker quakeA)
      rfl (by with_unfolding_all rfl) (by norm_num) (by norm_num)).1,
   (claim_c4 env0).2.2.2 0 0 80 1000 5 rnd1 (initialState [quakeA]) (by decide)⟩

/-! Claim C3: history mode. -/

/-- historyIter iterates the interval tick k times, the t-th tick consuming
    the randomness stream `rnds t`. -/
def historyIter (env : TrigEnv) (rnds : ℕ → ℕ → ℚ) : ℕ → AppState → AppState
  | 0, s => s
  | k + 1, s => historyTick env (rnds k) (historyIter env rnds k s)

theorem historyTick_reveal (env : TrigEnv) (rnd : ℕ → ℚ) (s : AppState)
    (m : Marker) (hm : s.markers[s.historyIndex]? = some m) :
    historyTick env rnd s =
    { s with
      markers := listModify s.markers s.historyIndex
        (fun mk => { mk with opacity := 9/10, lineOpacity := 1/2 })
      particleSystems := s.particleSystems ++
        [createParticleExplosion env m.originalPosition m.quake.magnitud
          m.quake.profundidad rnd]
      historyIndex := s.historyIndex + 1 } := by
  have h : s.historyIndex < s.markers.length := by
    by_contra hcon
    rw [List.getElem?_eq_none (Nat.le_of_not_lt hcon)] at hm
    exact Option.noConfusion hm
  have hget : s.markers.get ⟨s.historyIndex, h⟩ = m := by
    have he := List.getElem?_eq_getElem h
    rw [hm] at he
    exact (Option.some.injEq _ _).mp he.symm
  simp [historyTick, h]
  simp only [List.get_eq_getElem] at hget
  rw [hget]

theorem historyTick_wrap (env : TrigEnv) (rnd : ℕ → ℚ) (s : AppState)
    (h : s.markers.length ≤ s.historyIndex) :
    historyTick env rnd s =
    { s with historyIndex := 0, markers := s.markers.map historyDim } := by
  simp [historyTick, Nat.not_lt.mpr h]

theorem userData_fields {a b : Marker} (h : userData a = userData b) :
    a.quake = b.quake ∧ a.originalPosition = b.originalPosition := by
  simp [userData] at h
  exact ⟨h.1, h.2.1⟩

/-- Claim C3: while history mode is active, a tick with the index in range
    reveals exactly the marker at the index (opacity back to 0.9, a burst
    fired from its resting position) and increments the index, leaving every
    other marker's opacity untouched; a tick past the end wraps the index to
    0, dims every marker and fires nothing; iterating k ≤ n ticks from index
    0 reveals exactly the first k markers, in load order, firing exactly one
    burst per marker visited; and on an empty marker list a tick from the
    fresh history state is a no-op (never throws). -/
theorem claim_c3 (env : TrigEnv) :
    (∀ s rnd, s.markers = [] → s.historyIndex = 0 → historyTick env rnd s = s) ∧
    (∀ s rnd (h : s.historyIndex < s.markers.length),
      (historyTick env rnd s).historyIndex = s.historyIndex + 1 ∧
      ((historyTick env rnd s).markers[s.historyIndex]?).map Marker.opacity =
        some (9/10) ∧
      (∀ j, j ≠ s.historyIndex →
        ((historyTick env rnd s).markers[j]?).map Marker.opacity =
          (s.markers[j]?).map Marker.opacity) ∧
      (historyTick env rnd s).particleSystems = s.particleSystems ++
        [createParticleExplosion env
          (s.markers.get ⟨s.historyIndex, h⟩).originalPosition
          (s.markers.get ⟨s.historyIndex, h⟩).quake.magnitud
          (s.markers.get ⟨s.historyIndex, h⟩).quake.profundidad rnd]) ∧
    (∀ s rnd, s.markers.length ≤ s.historyIndex →
      historyTick env rnd s =
        { s with historyIndex := 0, markers := s.markers.map historyDim }) ∧
    (∀ s rnds, s.historyIndex = 0 → ∀ k, k ≤ s.markers.length →
      (historyIter env rnds k s).historyIndex = k ∧
      (historyIter env rnds k s).markers.length = s.markers.length ∧
      (∀ j : ℕ, ((historyIter env rnds k s).markers[j]?).map userData =
        (s.markers[j]?).map userData) ∧
      (∀ j : ℕ, j < k →
        ((historyIter env rnds k s).markers[j]?).map Marker.opacity =
          some (9/10)) ∧
      (∀ j : ℕ, k ≤ j →
        ((historyIter env rnds k s).markers[j]?).map Marker.opacity =
          (s.markers[j]?).map Marker.opacity) ∧
      (historyIter env rnds k s).particleSystems = s.particleSystems ++
        (List.range k).filterMap (fun t => (s.markers[t]?).map (fun m =>
          createParticleExplosion env m.originalPosition m.quake.magnitud
            m.quake.profundidad (rnds t)))) := by
  refine ⟨?_, ?_, fun s rnd h => historyTick_wrap env rnd s h, ?_⟩
  · intro s rnd h1 h2
    cases s
    simp_all [historyTick]
  · intro s rnd h
    have hm : s.markers[s.historyIndex]? =
        some (s.markers.get ⟨s.historyIndex, h⟩) :=
      List.getElem?_eq_getElem h
    rw [historyTick_reveal env rnd s _ hm]
    refine ⟨rfl, ?_, ?_, rfl⟩
    · simp [listModify_getElem?_self, hm]
    · intro j hj
      simp only []
      rw [listModify_getElem?]
      rw [if_neg (fun he => hj he.symm)]
  · intro s rnds hidx0 k
    induction k with
    | zero =>
      intro _
      exact ⟨hidx0, rfl, fun j => rfl,
        fun j hj => absurd hj (Nat.not_lt_zero j), fun j _ => rfl,
        by simp [historyIter]⟩
    | succ k ih =>
      intro hk
      have hk' : k ≤ s.markers.length := Nat.le_of_succ_le hk
      obtain ⟨ih1, ih2, ih3, ih4, ih5, ih6⟩ := ih hk'
      have hklen : k < s.markers.length := Nat.lt_of_succ_le hk
      obtain ⟨m0, hm0⟩ : ∃ m0, s.markers[k]? = some m0 :=
        ⟨s.markers.get ⟨k, hklen⟩, List.getElem?_eq_getElem hklen⟩
      have hmklen : k < (historyIter env rnds k s).markers.length := by
        rw [ih2]; exact hklen
      obtain ⟨mk, hmk⟩ : ∃ mk, (historyIter env rnds k s).markers[k]? = some mk :=
        ⟨(historyIter env rnds k s).markers.get ⟨k, hmklen⟩,
          List.getElem?_eq_getElem hmklen⟩
      have hud : userData mk = userData m0 := by
        have := ih3 k
        rw [hmk, hm0] at this
        simpa using this
      obtain ⟨hudq, hudo⟩ := userData_fields hud
      have hmk' : (historyIter env rnds k s).markers[
          (historyIter env rnds k s).historyIndex]? = some mk := by
        rw [ih1]; exact hmk
      have hstep : historyIter env rnds (k + 1) s =
          historyTick env (rnds k) (historyIter env rnds k s) := rfl
      rw [hstep, historyTick_reveal env (rnds k) _ mk hmk']
      refine ⟨by simp [ih1], by simp [listModify_length, ih2], ?_, ?_, ?_, ?_⟩
      · intro j
        simp only [listModify_getElem?, ih1]
        by_cases hj : k = j
        · subst hj
          rw [if_pos rfl, hmk, hm0]
          simpa using hud
        · rw [if_neg hj]
          exact ih3 j
      · intro j hj
        simp only [listModify_getElem?, ih1]
        by_cases hj' : k = j
        · subst hj'
          rw [if_pos rfl, hmk]
          rfl
        · rw [if_neg hj']
          exact ih4 j (by omega)
      · intro j hj
        simp only [listModify_getElem?, ih1]
        rw [if_neg (by omega)]
        exact ih5 j (by omega)
      · simp only [ih6, List.range_succ, List.filterMap_append, List.append_assoc]
        simp [hm0, hudq, hudo]

/-- Witness for C3: on the empty scene a tick is a no-op, and one tick after
    entering history mode on a one-marker scene reveals marker 0, advances
    the index to 1 and fires exactly its burst. -/
theorem claim_c3_witness :
    historyTick env0 rnd1 (initialState []) = initialState [] ∧
    (historyIter env0 (fun _ _ => 1) 1
        (setMode env0 Mode.history 0 rnd1 (initialState [quakeA]))).historyIndex
      = 1 ∧
    (∀ j, j < 1 →
      ((historyIter env0 (fun _ _ => 1) 1
          (setMode env0 Mode.history 0 rnd1
            (initialState [quakeA]))).markers[j]?).map Marker.opacity =
        some (9/10)) :=
  ⟨(claim_c3 env0).1 (initialState []) rnd1 rfl rfl,
   ((claim_c3 env0).2.2.2
      (setMode env0 Mode.history 0 rnd1 (initialState [quakeA]))
      (fun _ _ => 1) rfl 1 (by decide)).1,
   ((claim_c3 env0).2.2.2
      (setMode env0 Mode.history 0 rnd1 (initialState [quakeA]))
      (fun _ _ => 1) rfl 1 (by decide)).2.2.2.1⟩

/-! Claim C9: marker-collection invariants. -/

theorem userData_map_of (f : Marker → Marker)
    (hf : ∀ m, userData (f m) = userData m) (l : List Marker) :
    (l.map f).map userData = l.map userData := by
  induction l with
  | nil => rfl
  | cons a t ih => simp [hf, ih]

theorem userData_listModify (l : List Marker) (i : ℕ) (f : Marker → Marker)
    (hf : ∀ m, userData (f m) = userData m) :
    (listModify l i f).map userData = l.map userData := by
  induction l generalizing i with
  | nil => rfl
  | cons a t ih =>
    cases i with
    | zero => simp [listModify, hf]
    | succ n => simp [listModify, ih]

theorem userData_mapIdx (f : ℕ → Marker → Marker)
    (hf : ∀ i m, userData (f i m) = userData m) (i : ℕ) (l : List Marker) :
    (mapIdx f i l).map userData = l.map userData := by
  induction l generalizing i with
  | nil => rfl
  | cons a t ih => simp [mapIdx, hf, ih]

theorem runFallBody_userData (env : TrigEnv) (idx : ℕ)
    (st sy dur now : ℚ) (rnd : ℕ → ℚ) (s : AppState) :
    ((runFallBody env idx st sy dur now rnd s).markers).map userData =
      s.markers.map userData := by
  unfold runFallBody
  split
  · exact userData_listModify _ _ _ (fun m => rfl)
  · dsimp only
    split
    · split
      · dsimp only
        refine (userData_listModify _ _ _ ?_).trans
          (userData_listModify _ _ _ ?_)
        · exact fun m => rfl
        · exact fun m => rfl
      · exact userData_listModify _ _ _ (fun m => rfl)
    · exact userData_listModify _ _ _ (fun m => rfl)

theorem runTask_userData (env : TrigEnv) (t : Task) (now : ℚ) (rnd : ℕ → ℚ)
    (s : AppState) :
    ((runTask env t now rnd s).markers).map userData =
      s.markers.map userData := by
  cases t with
  | chaosPulse idx st' dur =>
    simp only [runTask, applyPulse]
    split
    · exact userData_listModify _ _ _ (fun m => rfl)
    · rfl
  | chaosBurst idx =>
    simp only [runTask]
    split <;> rfl
  | rainFallStart idx sy dur =>
    simp only [runTask]
    exact runFallBody_userData env idx now sy dur now rnd _
  | rainFall idx st' sy dur =>
    simp only [runTask]
    exact runFallBody_userData env idx st' sy dur now rnd _
  | dblBurst =>
    simp only [runTask]
    split
    · split <;> rfl
    · rfl

theorem historyTick_userData (env : TrigEnv) (rnd : ℕ → ℚ) (s : AppState) :
    ((historyTick env rnd s).markers).map userData =
      s.markers.map userData := by
  unfold historyTick
  split
  · exact userData_listModify _ _ _ (fun m => rfl)
  · exact userData_map_of historyDim (fun m => rfl) _

theorem unhoverApply_userData (s : AppState) :
    ((unhoverApply s).markers).map userData = s.markers.map userData := by
  unfold unhoverApply
  split
  · exact userData_listModify _ _ _ (fun m => rfl)
  · rfl

theorem hoverApply_userData (target : Option ℕ) (s : AppState) :
    ((hoverApply target s).markers).map userData = s.markers.map userData := by
  unfold hoverApply
  split
  · dsimp only
    split
    · exact userData_listModify _ _ _ (fun m => rfl)
    · rfl
  · rfl

theorem onMouseMove_userData (target : Option ℕ) (s : AppState) :
    ((onMouseMove target s).markers).map userData =
      s.markers.map userData := by
  unfold onMouseMove
  exact (hoverApply_userData target _).trans (unhoverApply_userData s)

theorem setMode_userData (env : TrigEnv) (mode : Mode) (now : ℚ)
    (rnd : ℕ → ℚ) (s : AppState) :
    ((setMode env mode now rnd s).markers).map userData =
      s.markers.map userData := by
  have hreset : ((resetPhase mode s).markers).map userData =
      s.markers.map userData :=
    userData_map_of resetMarker (fun m => rfl) s.markers
  cases mode with
  | explorer => exact hreset
  | history =>
    exact (userData_map_of historyDim (fun m => rfl) _).trans hreset
  | chaos =>
    show ((startChaosMode env now rnd (resetPhase Mode.chaos s)).markers).map
        userData = s.markers.map userData
    have hc : (resetPhase Mode.chaos s).currentMode = Mode.chaos := rfl
    rw [startChaosMode_markers, if_pos hc]
    refine (userData_map_of _ ?_ _).trans hreset
    exact fun m => rfl
  | rain =>
    show ((startRainMode (resetPhase Mode.rain s)).markers).map userData =
      s.markers.map userData
    unfold startRainMode
    dsimp only
    refine (userData_mapIdx _ ?_ 0 _).trans hreset
    exact fun i m => rfl

theorem stepRun_userData (env : TrigEnv) (s : AppState) (st : Step) :
    ((stepRun env s st).markers).map userData = s.markers.map userData := by
  cases st with
  | smode mode now rnd => exact setMode_userData env mode now rnd s
  | task t now rnd =>
    by_cases hmem : t ∈ s.tasks
    · simp only [stepRun, if_pos hmem]
      exact runTask_userData env t now rnd s
    · simp only [stepRun, if_neg hmem]
  | tick rnd =>
    by_cases hint : s.modeInterval
    · simp only [stepRun, if_pos hint]
      exact historyTick_userData env rnd s
    · simp only [stepRun, if_neg hint]
  | frame dt => rfl
  | mouse target => exact onMouseMove_userData target s
  | click =>
    simp only [stepRun, onClick]
    split
    · split <;> rfl
    · rfl
  | dblclick =>
    simp only [stepRun]
    split <;> rfl

theorem foldl_userData (env : TrigEnv) (steps : List Step) : ∀ s : AppState,
    ((List.foldl (stepRun env) s steps).markers).map userData =
      s.markers.map userData := by
  induction steps with
  | nil => intro s; rfl
  | cons a t ih =>
    intro s
    rw [List.foldl_cons]
    exact (ih _).trans (stepRun_userData env s a)

/-- Claim C9: after scene build, the marker count always equals the number
    of loaded records — mode switches, fired callbacks, interval ticks,
    particle updates, hover, click and double click never remove a marker —
    and every marker's color and base size remain the pure functions
    `getColorByDepth`/`markerSize` of its own record for the whole run. -/
theorem claim_c9 (env : TrigEnv) (records : List Quake) (steps : List Step) :
    (List.foldl (stepRun env) (initialState records) steps).markers.length =
      records.length ∧
    (∀ i : ℕ,
      ((List.foldl (stepRun env) (initialState records) steps).markers[i]?).map
        (fun m => (m.color, m.baseSize)) =
      (records[i]?).map (fun r =>
        (getColorByDepth (some r.profundidad), markerSize r.magnitud))) := by
  have key := foldl_userData env steps (initialState records)
  have hinit : ((initialState records).markers).map userData =
      records.map (fun r => userData (mkMarker r)) := by
    simp [initialState, createEarthquakeMarkers]
  constructor
  · have := congrArg List.length (key.trans hinit)
    simpa using this
  · intro i
    have h1 : ((List.foldl (stepRun env) (initialState records) steps).markers[i]?).map
        userData = (records[i]?).map (fun r => userData (mkMarker r)) := by
      have e1 := congrArg (fun l => l[i]?) (key.trans hinit)
      simpa [List.getElem?_map] using e1
    cases hopt : (List.foldl (stepRun env) (initialState records) steps).markers[i]? with
    | none =>
      rw [hopt] at h1
      cases hrec : records[i]? with
      | none => rfl
      | some r => rw [hrec] at h1; simp at h1
    | some mrk =>
      rw [hopt] at h1
      cases hrec : records[i]? with
      | none => rw [hrec] at h1; simp at h1
      | some r =>
        rw [hrec] at h1
        simp only [Option.map_some', Option.some.injEq] at h1
        have hc : mrk.color = getColorByDepth (some r.profundidad) := by
          have := congrArg (fun u => u.2.2.1) h1
          simpa [userData, mkMarker] using this
        have hb : mrk.baseSize = markerSize r.magnitud := by
          have := congrArg (fun u => u.2.2.2) h1
          simpa [userData, mkMarker] using this
        simp [hc, hb]

end Cartago
